import Mathlib

/-!
Verification of the `Sampling` outlier detector (`pyod/models/sampling.py`,
Sugiyama & Borgwardt, NIPS 2013) against its specification.

The embedding is a faithful state-passing translation of the Python class:
machine floats become rationals, numpy arrays become lists, attribute
assignment becomes record update, and a raised exception becomes an
`Except.error` carrying the instance state at the point of the raise (Python
leaves mutations performed before an exception in place).  External
collaborators that the source imports (sklearn validation helpers, the numpy
generator, the metric objects, and the `BaseDetector` base class) are modelled
from their contracts as stated in the specification.

Rational arithmetic is written through small kernel-computable wrappers
(`ratAdd`, `ratSub`, `ratAbs`, `ratSum`, `subsetCount`); the bridging lemmas
`ratAdd_eq`, `ratSub_eq`, `ratAbs_eq`, `ratSum_eq` and `subsetCount_eq_floor`
prove that they are exactly the field operations, absolute value, sum and
floor on `ℚ`, so every definition below computes with ordinary rational
arithmetic while remaining evaluable inside the kernel.
-/

namespace PyodSampling

/-- Addition on `ℚ`, written as a normalised fraction so that the kernel can
evaluate it (see `ratAdd_eq`). -/
def ratAdd (a b : ℚ) : ℚ := mkRat (a.num * b.den + b.num * a.den) (a.den * b.den)

/-- Subtraction on `ℚ`, written as a normalised fraction so that the kernel
can evaluate it (see `ratSub_eq`). -/
def ratSub (a b : ℚ) : ℚ := mkRat (a.num * b.den - b.num * a.den) (a.den * b.den)

/-- Absolute value on `ℚ` (see `ratAbs_eq`). -/
def ratAbs (a : ℚ) : ℚ := if a < 0 then ratSub 0 a else a

/-- Sum of a list of rationals (see `ratSum_eq`). -/
def ratSum : List ℚ → ℚ
  | [] => 0
  | x :: xs => ratAdd x (ratSum xs)

/-- The Python conversion `int(q * n)` for a fraction `q` and a row count `n`:
the absolute subset count.  `int()` truncates toward zero, which on the
nonnegative values produced by a valid fraction is exactly
`⌊q * n⌋` (see `subsetCount_eq_floor`). -/
def subsetCount (q : ℚ) (n : ℕ) : ℕ := ((q.num * n) / (q.den : ℤ)).toNat

theorem ratAdd_eq (a b : ℚ) : ratAdd a b = a + b := by
  rw [Rat.add_def]; simp [ratAdd, Rat.normalize_eq_mkRat]

theorem ratSub_eq (a b : ℚ) : ratSub a b = a - b := by
  rw [Rat.sub_def]; simp [ratSub, Rat.normalize_eq_mkRat]

theorem ratAbs_eq (a : ℚ) : ratAbs a = |a| := by
  unfold ratAbs
  split
  · rw [ratSub_eq, zero_sub, abs_of_neg (by assumption)]
  · rw [abs_of_nonneg (not_lt.mp (by assumption))]

theorem ratSum_eq (l : List ℚ) : ratSum l = l.sum := by
  induction l with
  | nil => rfl
  | cons x xs ih => rw [ratSum, ratAdd_eq, ih, List.sum_cons]

theorem rat_mul_natCast_eq_div (q : ℚ) (n : ℕ) :
    q * (n : ℚ) = ((q.num * n : ℤ) : ℚ) / ((q.den : ℕ) : ℚ) := by
  have hden : ((q.den : ℕ) : ℚ) ≠ 0 := Nat.cast_ne_zero.mpr q.den_nz
  rw [eq_div_iff hden]
  have hq : q * (q.den : ℚ) = (q.num : ℚ) := by
    nth_rewrite 1 [← Rat.num_div_den q]
    rw [div_mul_cancel₀ _ hden]
  push_cast
  calc q * (n : ℚ) * (q.den : ℚ) = q * (q.den : ℚ) * (n : ℚ) := by ring
    _ = (q.num : ℚ) * (n : ℚ) := by rw [hq]

theorem subsetCount_eq_floor (q : ℚ) (n : ℕ) (hq : 0 < q) :
    (subsetCount q n : ℤ) = ⌊q * (n : ℚ)⌋ := by
  have hfloor : ⌊q * (n : ℚ)⌋ = (q.num * n) / (q.den : ℤ) := by
    rw [rat_mul_natCast_eq_div, Rat.floor_intCast_div_natCast]
  have hnum : 0 ≤ q.num := le_of_lt (Rat.num_pos.mpr hq)
  have hnn : 0 ≤ (q.num * n) / (q.den : ℤ) :=
    Int.ediv_nonneg (mul_nonneg hnum (Int.natCast_nonneg n)) (Int.natCast_nonneg q.den)
  rw [subsetCount, hfloor, Int.toNat_of_nonneg hnn]

/-- A data point: a vector of rational feature values (embedding the
real-valued feature vectors of the source). -/
abbrev Vec : Type := List ℚ

/-- A data set: an ordered collection of points (rows). -/
abbrev Mat : Type := List Vec

/-- Errors surfaced by the embedded operations.  `invalidInput` is a
`check_array` rejection; `invalidParameter` is the `ValueError` raised by the
`subset_size` validation in `fit`; `reductionError` is the `ValueError` numpy
raises for a minimum reduction over an empty axis; `notFitted` is sklearn's
`NotFittedError`; `attrError` models calling a method on a `None` attribute. -/
inductive SPError : Type
  | invalidInput
  | invalidParameter
  | reductionError
  | notFitted
  | attrError
  deriving DecidableEq, Repr

/-- Modelled from the spec: sklearn `check_array` — input validation that
produces a well-formed 2-D numeric array (at least one row, at least one
feature, all rows of equal length) or fails before reaching the core. -/
def checkArray (X : Mat) : Except SPError Mat :=
  match X with
  | [] => .error .invalidInput
  | r :: rs =>
    if r.length = 0 then .error .invalidInput
    else if rs.all (fun row => row.length = r.length) then .ok (r :: rs)
    else .error .invalidInput

/-- Modelled from the spec: the injectable random source (a numpy
`RandomState` generator instance).  The embedding keeps the generator's
internal state abstractly as a natural number. -/
structure RandomState : Type where
  state : ℕ
  deriving DecidableEq, Repr

/-- Modelled from the spec: sklearn `check_random_state` — turns an integer
seed into a generator instance owned by the caller. -/
def check_random_state (seed : ℕ) : RandomState := ⟨seed⟩

/-- Modelled from the spec: `RandomState.choice(n, size=size, replace=False)`
— draws `size` distinct indices from `[0, n)`, deterministically from the
generator state, and advances the generator state (the draw consumes the
generator). -/
def RandomState.choice (rs : RandomState) (n size : ℕ) : List ℕ × RandomState :=
  (((List.range n).rotate rs.state).take size, ⟨rs.state + 1⟩)

/-- Manhattan distance on rational vectors: the concrete distance function
used to instantiate the metric abstraction (the spec places the metric
implementations themselves outside the core; the core only needs a
pairwise-distance object satisfying the metric contract). -/
def l1dist (x y : Vec) : ℚ := ratSum ((x.zip y).map (fun p => ratAbs (ratSub p.1 p.2)))

/-- Modelled from the spec: a resolved sklearn `DistanceMetric` object.  It
retains the metric name and the extra arguments it was resolved with, and
provides the distance function. -/
structure DistanceMetric : Type where
  name : String
  args : List ℚ
  dist : Vec → Vec → ℚ

/-- Modelled from the spec: `DistanceMetric.get_metric(name, *args)` —
resolves a metric name plus extra positional arguments (recorded verbatim)
into a pairwise-distance object. -/
def DistanceMetric.get_metric (name : String) (args : List ℚ) : DistanceMetric :=
  ⟨name, args, l1dist⟩

/-- `dist.pairwise(X, Y)`: the full pairwise-distance matrix whose `(i, j)`
entry is the distance between row `i` of `X` and row `j` of `Y`. -/
def DistanceMetric.pairwise (m : DistanceMetric) (X Y : Mat) : List (List ℚ) :=
  X.map (fun x => Y.map (fun y => m.dist x y))

/-- Minimum of one row (`np.min` of a nonempty vector); the `[]` case is
never produced by `npMinAxis1`, which rejects empty rows first. -/
def listMin : List ℚ → ℚ
  | [] => 0
  | x :: xs => xs.foldl min x

/-- `np.min(M, axis=1)`: the row-wise minimum.  numpy raises a `ValueError`
when the reduced axis is empty (a minimum reduction has no identity), which
the embedding reports as `reductionError`. -/
def npMinAxis1 (M : List (List ℚ)) : Except SPError (List ℚ) :=
  if M.all (fun row => !row.isEmpty) then .ok (M.map listMin)
  else .error .reductionError

/-- The `subset_size` parameter: a Python `int` or a Python `float`
fraction (`fit` branches on `isinstance`). -/
inductive SubsetSize : Type
  | int (k : ℤ)
  | frac (q : ℚ)
  deriving DecidableEq, Repr

/-- The instance state of a `Sampling` detector.  `threshold_` and `labels_`
being `none` models the attribute not existing on the Python object (they are
first assigned by `_process_decision_scores`); `dist`, `subset` and
`decision_scores_` are assigned `None` in `__init__`.  `resolve_count` is a
ghost counter of the `DistanceMetric.get_metric` calls performed on this
instance. -/
structure Sampling : Type where
  contamination : ℚ
  subset_size : SubsetSize
  metric : String
  metric_params : Option (List ℚ)
  random_state : RandomState
  dist : Option DistanceMetric
  subset : Option Mat
  decision_scores_ : Option (List ℚ)
  threshold_ : Option ℚ
  labels_ : Option (List ℕ)
  resolve_count : ℕ

/-- `Sampling.__init__`: stores the configuration, converts the seed to a
generator instance once (`check_random_state`), and initialises `dist`,
`subset` and `decision_scores_` to `None`. -/
def Sampling.init (contamination : ℚ) (subset_size : SubsetSize) (metric : String)
    (metric_params : Option (List ℚ)) (random_state : ℕ) : Sampling :=
  { contamination := contamination
    subset_size := subset_size
    metric := metric
    metric_params := metric_params
    random_state := check_random_state random_state
    dist := none
    subset := none
    decision_scores_ := none
    threshold_ := none
    labels_ := none
    resolve_count := 0 }

/-- Modelled from the spec: the external `BaseDetector._process_decision_scores`
collaborator (the repository's `base` module) — the threshold is the value at
the contamination-quantile from the top of the sorted training scores, and the
labels mark scores at or above the threshold as 1 (outlier). -/
def processDecisionScores (scores : List ℚ) (contamination : ℚ) : ℚ × List ℕ :=
  let sorted := scores.insertionSort (fun a b => b ≤ a)
  let cut := subsetCount contamination scores.length
  let threshold := sorted.getD cut 0
  (threshold, scores.map (fun v => if threshold ≤ v then 1 else 0))

/-- The metric resolution performed by `fit`: `get_metric(metric)` when
`metric_params is None`, `get_metric(metric, *metric_params)` otherwise (the
extra arguments are forwarded verbatim). -/
def resolvedDist (self : Sampling) : DistanceMetric :=
  match self.metric_params with
  | none => DistanceMetric.get_metric self.metric []
  | some ps => DistanceMetric.get_metric self.metric ps

/-- The body of `Sampling.fit` after the `subset_size` validation: draw the
random subset (consuming the stored generator), extract its rows, resolve the
metric, score the training data as the row-wise minimum of the pairwise
distances, and hand the scores to the threshold collaborator.  `size` is the
value `self.subset_size` holds at the draw (already an absolute count).  An
error raised here carries the mutations already performed. -/
def fitBody (self : Sampling) (X : Mat) (size : ℕ) :
    Except (Sampling × SPError) Sampling :=
  let drawn := self.random_state.choice X.length size
  let sub := drawn.1.map (fun i => X.getD i [])
  let d := resolvedDist self
  let self1 : Sampling :=
    { self with
      random_state := drawn.2
      subset := some sub
      dist := some d
      resolve_count := self.resolve_count + 1 }
  match npMinAxis1 (d.pairwise X sub) with
  | .error e => .error (self1, e)
  | .ok anomaly_scores =>
    let pd := processDecisionScores anomaly_scores self.contamination
    .ok { self1 with
          decision_scores_ := some anomaly_scores
          threshold_ := some pd.1
          labels_ := some pd.2 }

/-- `Sampling.fit`: validate the input array, validate `subset_size` (an
integer must satisfy `0 ≤ k ≤ n_samples`; a fraction must satisfy
`0 < q ≤ 1` and is converted to the absolute count `int(q * n_samples)`,
overwriting `self.subset_size`, before sampling), then run `fitBody`.  On
failure the error carries the instance state at the point of the raise. -/
def fit (self : Sampling) (X0 : Mat) : Except (Sampling × SPError) Sampling :=
  match checkArray X0 with
  | .error e => .error (self, e)
  | .ok X =>
    match self.subset_size with
    | .int k =>
      if 0 ≤ k ∧ k ≤ (X.length : ℤ) then fitBody self X k.toNat
      else .error (self, .invalidParameter)
    | .frac q =>
      if 0 < q ∧ q ≤ 1 then
        fitBody { self with subset_size := .int (subsetCount q X.length : ℤ) } X
          (subsetCount q X.length)
      else .error (self, .invalidParameter)

/-- Modelled from the spec: sklearn `check_is_fitted(self, ["decision_scores_",
"threshold_", "labels_"])` — the detector counts as fitted when all three
attributes exist on the instance.  `decision_scores_` is assigned (to `None`)
already in `__init__`, so its `hasattr` check always passes; only `threshold_`
and `labels_` can be missing. -/
def checkIsFitted (self : Sampling) : Bool :=
  self.threshold_.isSome && self.labels_.isSome

/-- `Sampling.decision_function`: require a fitted detector, validate the
query array, then score the queries as the row-wise minimum of the pairwise
distances to the stored subset under the stored resolved metric.  The method
assigns no attribute, so every branch returns the input state unchanged. -/
def decision_function (self : Sampling) (X0 : Mat) :
    Except SPError (List ℚ) × Sampling :=
  if checkIsFitted self then
    match checkArray X0 with
    | .error e => (.error e, self)
    | .ok X =>
      match self.dist, self.subset with
      | some d, some sub =>
        match npMinAxis1 (d.pairwise X sub) with
        | .error e => (.error e, self)
        | .ok anomaly_scores => (.ok anomaly_scores, self)
      | _, _ => (.error .attrError, self)
  else (.error .notFitted, self)

/-- The instance state after a `fit` call, successful or not (Python keeps the
mutations performed before a raise). -/
def fitState (s : Sampling) (X : Mat) : Sampling :=
  match fit s X with
  | .ok s1 => s1
  | .error p => p.1

/-- Whether a `fit` call returns normally. -/
def fitOk (s : Sampling) (X : Mat) : Bool :=
  match fit s X with
  | .ok _ => true
  | .error _ => false

/-- The error raised by a `fit` call, when one is raised. -/
def fitErr (s : Sampling) (X : Mat) : Option SPError :=
  match fit s X with
  | .ok _ => none
  | .error p => some p.2

/-- A concrete 3-row, 1-feature training set used by the concrete instances
below. -/
def X3 : Mat := [[0], [2], [5]]

/-- A concrete detector: contamination 1/10, `subset_size=2`, seed 0. -/
def s3 : Sampling := Sampling.init (mkRat 1 10) (.int 2) "minkowski" none 0

example : fitOk s3 X3 = true := by decide
example : (fitState s3 X3).decision_scores_ = some [0, 0, 3] := by decide
example : (fitState s3 X3).subset = some [[0], [2]] := by decide
example : (fitState (fitState s3 X3) X3).subset = some [[2], [5]] := by decide

theorem checkArray_ok {X Y : Mat} (h : checkArray X = .ok Y) : Y = X ∧ X ≠ [] := by
  match X with
  | [] => simp [checkArray] at h
  | r :: rs =>
    simp only [checkArray] at h
    split at h
    · cases h
    · split at h
      · cases h; exact ⟨rfl, by simp⟩
      · cases h

theorem foldl_min_mem (a : ℚ) (l : List ℚ) : l.foldl min a ∈ a :: l := by
  induction l generalizing a with
  | nil => simp
  | cons b t ih =>
    simp only [List.foldl_cons]
    rcases List.mem_cons.mp (ih (min a b)) with h | h
    · rw [h]
      rcases min_choice a b with hm | hm <;> rw [hm] <;> simp
    · simp [h]

theorem foldl_min_le_init (l : List ℚ) (a : ℚ) : l.foldl min a ≤ a := by
  induction l generalizing a with
  | nil => simp
  | cons c t ih => exact le_trans (ih (min a c)) (min_le_left a c)

theorem foldl_min_le_mem (l : List ℚ) (a : ℚ) {b : ℚ} (hb : b ∈ l) :
    l.foldl min a ≤ b := by
  induction l generalizing a with
  | nil => simp at hb
  | cons c t ih =>
    simp only [List.foldl_cons]
    rcases List.mem_cons.mp hb with h | h
    · subst h; exact le_trans (foldl_min_le_init t _) (min_le_right a b)
    · exact ih (min a c) h

theorem listMin_mem {l : List ℚ} (h : l ≠ []) : listMin l ∈ l := by
  match l with
  | x :: xs => exact foldl_min_mem x xs

theorem listMin_le {l : List ℚ} {b : ℚ} (hb : b ∈ l) : listMin l ≤ b := by
  match l with
  | x :: xs =>
    rcases List.mem_cons.mp hb with h | h
    · subst h; exact foldl_min_le_init xs b
    · exact foldl_min_le_mem xs x h

theorem listMin_nonneg {l : List ℚ} (h : l ≠ []) (h2 : ∀ y ∈ l, 0 ≤ y) :
    0 ≤ listMin l := h2 _ (listMin_mem h)

theorem listMin_eq_zero {l : List ℚ} (h0 : (0 : ℚ) ∈ l) (h2 : ∀ y ∈ l, 0 ≤ y) :
    listMin l = 0 :=
  le_antisymm (listMin_le h0) (listMin_nonneg (List.ne_nil_of_mem h0) h2)

theorem l1dist_nonneg (x y : Vec) : 0 ≤ l1dist x y := by
  rw [l1dist, ratSum_eq]
  apply List.sum_nonneg
  intro a ha
  obtain ⟨p, _, rfl⟩ := List.mem_map.mp ha
  rw [ratAbs_eq]
  exact abs_nonneg _

theorem l1dist_self (x : Vec) : l1dist x x = 0 := by
  induction x with
  | nil => rfl
  | cons a t ih =>
    rw [l1dist] at ih ⊢
    rw [List.zip_cons_cons, List.map_cons, ratSum, ratAdd_eq, ih, ratAbs_eq, ratSub_eq]
    simp

theorem choice_fst_nodup (rs : RandomState) (n size : ℕ) :
    (rs.choice n size).1.Nodup := by
  have hrot : ((List.range n).rotate rs.state).Nodup :=
    ((List.rotate_perm (List.range n) rs.state).nodup_iff).mpr (List.nodup_range n)
  exact hrot.sublist (List.take_sublist _ _)

theorem choice_fst_mem {rs : RandomState} {n size i : ℕ}
    (h : i ∈ (rs.choice n size).1) : i < n := by
  have h2 : i ∈ (List.range n).rotate rs.state := List.take_subset _ _ h
  exact List.mem_range.mp (((List.rotate_perm (List.range n) rs.state).mem_iff).mp h2)

theorem choice_fst_length (rs : RandomState) {n size : ℕ} (h : size ≤ n) :
    (rs.choice n size).1.length = size := by
  simp [RandomState.choice, List.length_rotate, Nat.min_eq_left h]

theorem choice_full_perm (rs : RandomState) (n : ℕ) :
    List.Perm (rs.choice n n).1 (List.range n) := by
  have hlen : ((List.range n).rotate rs.state).length ≤ n := by
    simp [List.length_rotate]
  show List.Perm (((List.range n).rotate rs.state).take n) (List.range n)
  rw [List.take_of_length_le hlen]
  exact List.rotate_perm _ _

theorem resolvedDist_eq (s : Sampling) :
    resolvedDist s = DistanceMetric.get_metric s.metric (s.metric_params.getD []) := by
  unfold resolvedDist
  cases h : s.metric_params <;> rfl

theorem resolvedDist_dist (s : Sampling) : (resolvedDist s).dist = l1dist := by
  rw [resolvedDist_eq]; rfl

theorem pairwise_length (m : DistanceMetric) (X Y : Mat) :
    (m.pairwise X Y).length = X.length := by
  simp [DistanceMetric.pairwise]

theorem npMinAxis1_pairwise_ok (m : DistanceMetric) (X Y : Mat) (hY : Y ≠ []) :
    npMinAxis1 (m.pairwise X Y) = .ok ((m.pairwise X Y).map listMin) := by
  have hall : (m.pairwise X Y).all (fun row => !row.isEmpty) = true := by
    rw [List.all_eq_true]
    intro row hrow
    simp only [DistanceMetric.pairwise] at hrow
    obtain ⟨x, _, rfl⟩ := List.mem_map.mp hrow
    simpa [List.isEmpty_iff, List.map_eq_nil_iff] using hY
  rw [npMinAxis1, if_pos hall]

theorem npMinAxis1_ok_inv {M : List (List ℚ)} {res : List ℚ}
    (h : npMinAxis1 M = .ok res) :
    res = M.map listMin ∧ ∀ row ∈ M, row ≠ [] := by
  rw [npMinAxis1] at h
  split at h
  next hall =>
    cases h
    refine ⟨rfl, fun row hrow => ?_⟩
    have := List.all_eq_true.mp hall row hrow
    simpa [List.isEmpty_iff] using this
  next => cases h

theorem fitBody_ok_spec {s : Sampling} {X : Mat} {size : ℕ} {s1 : Sampling}
    (h : fitBody s X size = .ok s1) :
    s1.subset = some ((s.random_state.choice X.length size).1.map (fun i => X.getD i [])) ∧
    s1.dist = some (resolvedDist s) ∧
    s1.decision_scores_ =
      some (((resolvedDist s).pairwise X
        ((s.random_state.choice X.length size).1.map (fun i => X.getD i []))).map listMin) ∧
    s1.threshold_.isSome = true ∧
    s1.labels_.isSome = true ∧
    s1.subset_size = s.subset_size ∧
    s1.metric = s.metric ∧
    s1.metric_params = s.metric_params ∧
    s1.contamination = s.contamination ∧
    s1.random_state = (s.random_state.choice X.length size).2 ∧
    s1.resolve_count = s.resolve_count + 1 ∧
    (∀ row ∈ (resolvedDist s).pairwise X
        ((s.random_state.choice X.length size).1.map (fun i => X.getD i [])), row ≠ []) := by
  simp only [fitBody] at h
  split at h
  next => cases h
  next scores heq =>
    obtain ⟨hres, hrows⟩ := npMinAxis1_ok_inv heq
    cases h
    subst hres
    exact ⟨rfl, rfl, rfl, rfl, rfl, rfl, rfl, rfl, rfl, rfl, rfl, hrows⟩

theorem fitBody_error_spec {s : Sampling} {X : Mat} {size : ℕ} {s1 : Sampling}
    {e : SPError} (h : fitBody s X size = .error (s1, e)) :
    npMinAxis1 ((resolvedDist s).pairwise X
      ((s.random_state.choice X.length size).1.map (fun i => X.getD i []))) = .error e ∧
    s1.subset = some ((s.random_state.choice X.length size).1.map (fun i => X.getD i [])) ∧
    s1.dist = some (resolvedDist s) ∧
    s1.decision_scores_ = s.decision_scores_ ∧
    s1.threshold_ = s.threshold_ ∧
    s1.labels_ = s.labels_ ∧
    s1.subset_size = s.subset_size ∧
    s1.random_state = (s.random_state.choice X.length size).2 := by
  simp only [fitBody] at h
  split at h
  next err heq =>
    cases h
    exact ⟨by rw [heq], rfl, rfl, rfl, rfl, rfl, rfl, rfl⟩
  next => cases h

theorem fit_ok_cases {s s1 : Sampling} {X : Mat} (h : fit s X = .ok s1) :
    checkArray X = .ok X ∧ X ≠ [] ∧
    ((∃ k : ℤ, s.subset_size = .int k ∧ 0 ≤ k ∧ k ≤ (X.length : ℤ) ∧
        fitBody s X k.toNat = .ok s1) ∨
     (∃ q : ℚ, s.subset_size = .frac q ∧ 0 < q ∧ q ≤ 1 ∧
        fitBody { s with subset_size := .int (subsetCount q X.length : ℤ) } X
          (subsetCount q X.length) = .ok s1)) := by
  unfold fit at h
  split at h
  next => cases h
  next X1 heq =>
    obtain ⟨hXX, hne⟩ := checkArray_ok heq
    subst hXX
    refine ⟨heq, hne, ?_⟩
    split at h
    next k hk =>
      split at h
      next hcond => exact Or.inl ⟨k, hk, hcond.1, hcond.2, h⟩
      next => cases h
    next q hq =>
      split at h
      next hcond => exact Or.inr ⟨q, hq, hcond.1, hcond.2, h⟩
      next => cases h

theorem subsetCount_le (q : ℚ) (n : ℕ) (h0 : 0 < q) (h1 : q ≤ 1) :
    subsetCount q n ≤ n := by
  have heq := subsetCount_eq_floor q n h0
  have hmul : q * (n : ℚ) ≤ (n : ℚ) := by
    calc q * (n : ℚ) ≤ 1 * (n : ℚ) :=
          mul_le_mul_of_nonneg_right h1 (Nat.cast_nonneg n)
      _ = (n : ℚ) := one_mul _
  have hfl : ⌊q * (n : ℚ)⌋ ≤ (n : ℤ) := by
    calc ⌊q * (n : ℚ)⌋ ≤ ⌊((n : ℕ) : ℚ)⌋ := Int.floor_le_floor hmul
      _ = (n : ℤ) := Int.floor_natCast n
  have : (subsetCount q n : ℤ) ≤ (n : ℤ) := heq ▸ hfl
  exact_mod_cast this

theorem subset_ne_nil_of_rows {m : DistanceMetric} {X sub : Mat} (hX : X ≠ [])
    (h : ∀ row ∈ m.pairwise X sub, row ≠ []) : sub ≠ [] := by
  match X with
  | x :: t =>
    intro hsub
    have hrow : sub.map (fun y => m.dist x y) ∈ m.pairwise (x :: t) sub := by
      simp [DistanceMetric.pairwise]
    exact h _ hrow (by simp [hsub])

theorem fit_ok_spec {s s1 : Sampling} {X : Mat} (h : fit s X = .ok s1) :
    checkArray X = .ok X ∧ X ≠ [] ∧
    ∃ size : ℕ,
      s1.subset = some ((s.random_state.choice X.length size).1.map (fun i => X.getD i [])) ∧
      s1.dist = some (resolvedDist s) ∧
      s1.decision_scores_ = some (((resolvedDist s).pairwise X
          ((s.random_state.choice X.length size).1.map (fun i => X.getD i []))).map listMin) ∧
      s1.threshold_.isSome = true ∧ s1.labels_.isSome = true ∧
      s1.metric = s.metric ∧ s1.metric_params = s.metric_params ∧
      s1.contamination = s.contamination ∧
      s1.random_state = (s.random_state.choice X.length size).2 ∧
      s1.resolve_count = s.resolve_count + 1 ∧
      size ≤ X.length ∧
      (∃ k : ℤ, s1.subset_size = .int k ∧ k.toNat = size ∧ 0 ≤ k) ∧
      (∀ row ∈ (resolvedDist s).pairwise X
          ((s.random_state.choice X.length size).1.map (fun i => X.getD i [])), row ≠ []) := by
  obtain ⟨hchk, hne, hcase⟩ := fit_ok_cases h
  refine ⟨hchk, hne, ?_⟩
  rcases hcase with ⟨k, hss, hk0, hkn, hbody⟩ | ⟨q, hss, hq0, hq1, hbody⟩
  · obtain ⟨h1, h2, h3, h4, h5, h6, h7, h8, h9, h10, h11, h12⟩ := fitBody_ok_spec hbody
    exact ⟨k.toNat, h1, h2, h3, h4, h5, h7, h8, h9, h10, h11,
      Int.toNat_le.mpr hkn, ⟨k, h6.trans hss, rfl, hk0⟩, h12⟩
  · obtain ⟨h1, h2, h3, h4, h5, h6, h7, h8, h9, h10, h11, h12⟩ := fitBody_ok_spec hbody
    exact ⟨subsetCount q X.length, h1, h2, h3, h4, h5, h7, h8, h9, h10, h11,
      subsetCount_le q X.length hq0 hq1,
      ⟨(subsetCount q X.length : ℤ), h6, Int.toNat_natCast _, Int.natCast_nonneg _⟩, h12⟩

theorem fit_ok_fitted {s s1 : Sampling} {X : Mat} (h : fit s X = .ok s1) :
    checkIsFitted s1 = true := by
  obtain ⟨-, -, size, -, -, -, h4, h5, -⟩ := fit_ok_spec h
  simp [checkIsFitted, h4, h5]

theorem fit_error_state {s s1 : Sampling} {X : Mat} {e : SPError}
    (h : fit s X = .error (s1, e)) :
    s1.threshold_ = s.threshold_ ∧ s1.labels_ = s.labels_ := by
  unfold fit at h
  split at h
  next => cases h; exact ⟨rfl, rfl⟩
  next X1 heq =>
    obtain ⟨hXX, _⟩ := checkArray_ok heq
    subst hXX
    split at h
    next k hk =>
      split at h
      next => exact ⟨(fitBody_error_spec h).2.2.2.2.1, (fitBody_error_spec h).2.2.2.2.2.1⟩
      next => cases h; exact ⟨rfl, rfl⟩
    next q hq =>
      split at h
      next => exact ⟨(fitBody_error_spec h).2.2.2.2.1, (fitBody_error_spec h).2.2.2.2.2.1⟩
      next => cases h; exact ⟨rfl, rfl⟩

theorem decision_function_snd (s : Sampling) (Q : Mat) :
    (decision_function s Q).2 = s := by
  rw [decision_function]
  split
  · split
    · rfl
    · split
      · split <;> rfl
      · rfl
  · rfl

theorem decision_function_fitted_ok {s1 : Sampling} {m : DistanceMetric} {sub : Mat}
    (hfit : checkIsFitted s1 = true) (hd : s1.dist = some m) (hs : s1.subset = some sub)
    (hsub : sub ≠ []) {Q : Mat} (hQ : checkArray Q = .ok Q) :
    (decision_function s1 Q).1 = .ok ((m.pairwise Q sub).map listMin) := by
  simp only [decision_function, hfit, if_true, hQ, hd, hs]
  rw [npMinAxis1_pairwise_ok m Q sub hsub]

theorem decision_function_ok_inv {s : Sampling} {Q : Mat} {scores : List ℚ}
    (h : (decision_function s Q).1 = .ok scores) :
    ∃ m sub, s.dist = some m ∧ s.subset = some sub ∧
      scores = (m.pairwise Q sub).map listMin := by
  rw [decision_function] at h
  split at h
  next hfit =>
    split at h
    next => cases h
    next X1 hchk =>
      split at h
      next m sub hd hs =>
        split at h
        next => cases h
        next res hres =>
          cases h
          obtain ⟨hre, -⟩ := npMinAxis1_ok_inv hres
          obtain ⟨hX1, -⟩ := checkArray_ok hchk
          subst hX1
          exact ⟨m, sub, hd, hs, hre⟩
      next => cases h
  next => cases h

/-- States of a detector on which no `fit` call has ever succeeded: freshly
constructed, or left behind by a failed `fit` call on such a state. -/
inductive NeverFitted : Sampling → Prop
  | init (c : ℚ) (ss : SubsetSize) (m : String) (mp : Option (List ℚ)) (seed : ℕ) :
      NeverFitted (Sampling.init c ss m mp seed)
  | fitFail {s s1 : Sampling} {X : Mat} {e : SPError} :
      NeverFitted s → fit s X = .error (s1, e) → NeverFitted s1

theorem neverFitted_not_fitted {s : Sampling} (h : NeverFitted s) :
    checkIsFitted s = false := by
  induction h with
  | init c ss m mp seed => rfl
  | fitFail hprev herr ih =>
    obtain ⟨hth, hlb⟩ := fit_error_state herr
    rw [checkIsFitted] at ih ⊢
    rw [hth, hlb]
    exact ih

/-- C1: for every fitted detector (any state produced by a successful `fit`)
and every well-formed query matrix, `decision_function` computes the full
pairwise-distance matrix between the queries and the stored reference subset
under the stored resolved metric and returns its row-wise minimum: a score
vector whose length equals the number of query rows and whose entries are all
nonnegative. -/
theorem score_is_rowwise_min_nonneg {s s1 : Sampling} {X : Mat}
    (hfit : fit s X = .ok s1) {Q : Mat} (hQ : checkArray Q = .ok Q) :
    ∃ (m : DistanceMetric) (sub : Mat) (scores : List ℚ),
      s1.dist = some m ∧ s1.subset = some sub ∧
      (decision_function s1 Q).1 = .ok scores ∧
      scores = (m.pairwise Q sub).map listMin ∧
      scores.length = Q.length ∧
      ∀ v ∈ scores, 0 ≤ v := by
  obtain ⟨-, hne, size, h1, h2, h3, h4, h5, h6, h7, h8, h9, h10, h11, h12, hrows⟩ :=
    fit_ok_spec hfit
  have hsubne : (s.random_state.choice X.length size).1.map (fun i => X.getD i []) ≠ [] :=
    subset_ne_nil_of_rows hne hrows
  have hfitted : checkIsFitted s1 = true := by simp [checkIsFitted, h4, h5]
  refine ⟨resolvedDist s, _,
    ((resolvedDist s).pairwise Q
      ((s.random_state.choice X.length size).1.map (fun i => X.getD i []))).map listMin,
    h2, h1, decision_function_fitted_ok hfitted h2 h1 hsubne hQ, rfl, ?_, ?_⟩
  · rw [List.length_map, pairwise_length]
  · intro v hv
    obtain ⟨row, hrow, rfl⟩ := List.mem_map.mp hv
    simp only [DistanceMetric.pairwise] at hrow
    obtain ⟨x, hx, rfl⟩ := List.mem_map.mp hrow
    apply listMin_nonneg
    · simpa using hsubne
    · intro y hy
      obtain ⟨w, hw, rfl⟩ := List.mem_map.mp hy
      rw [resolvedDist_dist]
      exact l1dist_nonneg x w

/-- C1 witness: the theorem applied to the concrete detector `s3` fitted on
`X3` and queried with `X3` itself. -/
theorem score_is_rowwise_min_nonneg_witness :
    ∃ (m : DistanceMetric) (sub : Mat) (scores : List ℚ),
      (fitState s3 X3).dist = some m ∧ (fitState s3 X3).subset = some sub ∧
      (decision_function (fitState s3 X3) X3).1 = .ok scores ∧
      scores = (m.pairwise X3 sub).map listMin ∧
      scores.length = X3.length ∧
      ∀ v ∈ scores, 0 ≤ v :=
  @score_is_rowwise_min_nonneg s3 (fitState s3 X3) X3 rfl X3 rfl

/-- C2 counterexample: on the concrete instance `s3`, two successive
successful `fit` calls with the same data draw different reference subsets
(the stored generator is consumed by the first fit), so the claim's
"two successive fit calls on one instance" half is false. -/
theorem refit_same_instance_differs :
    fitOk s3 X3 = true ∧ fitOk (fitState s3 X3) X3 = true ∧
    (fitState s3 X3).subset ≠ (fitState (fitState s3 X3) X3).subset :=
  ⟨by decide, by decide, by decide⟩

/-- C2 amended: fitting twice with the same seed and the same data yields an
identical reference subset and identical training scores when the two fits
start from equal freshly-constructed instances (same seed, same
configuration); two successive fit calls on one instance consume the stored
generator and need not coincide. -/
theorem same_seed_same_data_reproducible (c : ℚ) (ss : SubsetSize) (mname : String)
    (mp : Option (List ℚ)) (seed : ℕ) (X : Mat) (s1 s2 : Sampling)
    (h1 : fit (Sampling.init c ss mname mp seed) X = .ok s1)
    (h2 : fit (Sampling.init c ss mname mp seed) X = .ok s2) :
    s1.subset = s2.subset ∧ s1.decision_scores_ = s2.decision_scores_ := by
  rw [h1] at h2
  injection h2 with h
  subst h
  exact ⟨rfl, rfl⟩

/-- C2 witness: the amended theorem applied to two fits of the concrete
seed-0 configuration on `X3`. -/
theorem same_seed_same_data_reproducible_witness :
    (fitState s3 X3).subset = (fitState s3 X3).subset ∧
    (fitState s3 X3).decision_scores_ = (fitState s3 X3).decision_scores_ :=
  same_seed_same_data_reproducible (mkRat 1 10) (.int 2) "minkowski" none 0 X3
    (fitState s3 X3) (fitState s3 X3) rfl rfl

/-- C4: calling `decision_function` on an instance on which no fit call has
succeeded (freshly constructed, or after failed fit calls only) fails with
`NotFitted`, raised synchronously before any distance computation, with the
state unchanged. -/
theorem score_unfitted_raises {s : Sampling} (h : NeverFitted s) (Q : Mat) :
    decision_function s Q = (.error .notFitted, s) := by
  rw [decision_function, neverFitted_not_fitted h]
  rfl

/-- C4 witness: the theorem applied to the freshly constructed `s3`. -/
theorem score_unfitted_raises_witness :
    decision_function s3 X3 = (.error .notFitted, s3) :=
  score_unfitted_raises
    (NeverFitted.init (mkRat 1 10) (.int 2) "minkowski" none 0) X3

/-- C5: `decision_function` never alters the stored state (every field of the
instance is unchanged), and therefore scoring twice in sequence on the same
fitted instance with the same input yields the identical result. -/
theorem score_no_state_change (s : Sampling) (Q : Mat) :
    (decision_function s Q).2 = s ∧
    decision_function (decision_function s Q).2 Q = decision_function s Q := by
  exact ⟨decision_function_snd s Q, by rw [decision_function_snd]⟩

/-- The training set for the C3 invalid-parameter witness. -/
def sBad : Sampling := Sampling.init (mkRat 1 10) (.int (-1)) "minkowski" none 0

/-- C3: a fit call with a malformed `subset_size` (an integer outside
`[0, N]` or a fraction outside `(0, 1]`) raises `InvalidParameter` with the
instance state exactly as it was — no partial state change, the generator not
consumed — and a valid fraction is converted to the absolute count
`int(q * N) = ⌊q * N⌋` before sampling. -/
theorem fit_invalid_subset_size {s : Sampling} {X : Mat} (hX : checkArray X = .ok X) :
    (∀ k : ℤ, s.subset_size = .int k → ¬(0 ≤ k ∧ k ≤ (X.length : ℤ)) →
      fit s X = .error (s, .invalidParameter)) ∧
    (∀ q : ℚ, s.subset_size = .frac q → ¬(0 < q ∧ q ≤ 1) →
      fit s X = .error (s, .invalidParameter)) ∧
    (∀ q : ℚ, s.subset_size = .frac q → 0 < q → q ≤ 1 →
      ∀ s1, fit s X = .ok s1 →
        s1.subset_size = .int (subsetCount q X.length : ℤ) ∧
        (subsetCount q X.length : ℤ) = ⌊q * (X.length : ℚ)⌋) := by
  refine ⟨?_, ?_, ?_⟩
  · intro k hk hbad
    simp only [fit, hX, hk]
    rw [if_neg hbad]
  · intro q hq hbad
    simp only [fit, hX, hq]
    rw [if_neg hbad]
  · intro q hq hq0 hq1 s1 hfit
    obtain ⟨-, -, hcase⟩ := fit_ok_cases hfit
    rcases hcase with ⟨k, hk, -⟩ | ⟨q2, hq2, -, -, hbody⟩
    · rw [hq] at hk; cases hk
    · rw [hq] at hq2
      injection hq2 with hqq
      subst hqq
      have hss := (fitBody_ok_spec hbody).2.2.2.2.2.1
      exact ⟨hss, subsetCount_eq_floor q X.length hq0⟩

/-- C3 witness: the integer branch of the theorem applied to the concrete
instance `sBad` with `subset_size = -1` on `X3`. -/
theorem fit_invalid_subset_size_witness :
    fit sBad X3 = .error (sBad, .invalidParameter) :=
  (@fit_invalid_subset_size sBad X3 rfl).1 (-1) rfl (by decide)

theorem npMinAxis1_empty_rows {X : Mat} (hne : X ≠ []) (m : DistanceMetric) :
    npMinAxis1 (m.pairwise X []) = .error .reductionError := by
  match X with
  | x :: t =>
    rw [npMinAxis1, if_neg]
    simp [DistanceMetric.pairwise]

/-- The concrete detector for the C6 counterexample: `subset_size = 0`. -/
def s60 : Sampling := Sampling.init (mkRat 1 10) (.int 0) "minkowski" none 0

/-- C6 counterexample: with `subset_size = 0` on concrete data, fit neither
raises `InvalidParameter` nor completes: the validation accepts 0 and the fit
then fails with the distinct reduction error, so neither of the claim's two
allowed behaviors holds. -/
theorem subset_size_zero_neither :
    fitErr s60 X3 = some SPError.reductionError ∧
    fitOk s60 X3 = false ∧
    SPError.reductionError ≠ SPError.invalidParameter :=
  ⟨by decide, by decide, by decide⟩

/-- C6 amended: a fit call with `subset_size = 0` passes the parameter
validation, samples an empty subset and resolves the metric, and then fails
during the row-wise minimum reduction with `reductionError` — an error other
than `InvalidParameter`, raised after sampling, with the partial mutations
kept. -/
theorem subset_size_zero_reduction_error {s : Sampling} {X : Mat}
    (hX : checkArray X = .ok X) (h0 : s.subset_size = .int 0) :
    ∃ s1, fit s X = .error (s1, .reductionError) ∧
      s1.subset = some [] ∧ s1.dist = some (resolvedDist s) := by
  obtain ⟨-, hne⟩ := checkArray_ok hX
  have hbody : fitBody s X 0 =
      .error ({ s with
                random_state := (s.random_state.choice X.length 0).2
                subset := some []
                dist := some (resolvedDist s)
                resolve_count := s.resolve_count + 1 }, .reductionError) := by
    simp only [fitBody, RandomState.choice, List.take_zero, List.map_nil]
    rw [npMinAxis1_empty_rows hne]
  have hfit : fit s X =
      .error ({ s with
                random_state := (s.random_state.choice X.length 0).2
                subset := some []
                dist := some (resolvedDist s)
                resolve_count := s.resolve_count + 1 }, .reductionError) := by
    simp only [fit, hX, h0]
    rw [if_pos ⟨le_refl 0, Int.natCast_nonneg _⟩, ← h0]
    exact hbody
  exact ⟨_, hfit, rfl, rfl⟩

/-- C6 witness: the amended theorem applied to the concrete `s60` on `X3`. -/
theorem subset_size_zero_reduction_error_witness :
    ∃ s1, fit s60 X3 = .error (s1, .reductionError) ∧
      s1.subset = some [] ∧ s1.dist = some (resolvedDist s60) :=
  @subset_size_zero_reduction_error s60 X3 rfl rfl

/-- The concrete detector for the C7 counterexample: seed 5 on `X3`. -/
def s7 : Sampling := Sampling.init (mkRat 1 10) (.int 2) "cityblock" none 5

/-- C7 counterexample: a second successful `fit` call on the same instance
draws a new subset — the stored subset after the second fit differs from the
one after the first — so "the subset is never resampled by later calls on the
same instance" fails for later fit calls. -/
theorem later_fit_resamples :
    fitOk s7 X3 = true ∧ fitOk (fitState s7 X3) X3 = true ∧
    (fitState (fitState s7 X3) X3).subset ≠ (fitState s7 X3).subset :=
  ⟨by decide, by decide, by decide⟩

/-- C7 amended: the sampled reference subset repeats no row index (sampling
without replacement); after a successful fit the stored `subset_size` is an
absolute integer count, which later successful fits keep unchanged; and
scoring calls never resample the subset — a later successful fit call,
however, does draw a new subset (see the counterexample). -/
theorem subset_without_replacement {s s1 : Sampling} {X : Mat}
    (h : fit s X = .ok s1) :
    (∃ idxs : List ℕ, idxs.Nodup ∧ (∀ i ∈ idxs, i < X.length) ∧
       s1.subset = some (idxs.map (fun i => X.getD i []))) ∧
    (∀ Q, ((decision_function s1 Q).2).subset = s1.subset) ∧
    (∃ k : ℤ, s1.subset_size = .int k) ∧
    (∀ X2 s2, fit s1 X2 = .ok s2 → s2.subset_size = s1.subset_size) := by
  obtain ⟨-, -, size, h1, -, -, -, -, -, -, -, -, -, -, ⟨k, hss, -, -⟩, -⟩ :=
    fit_ok_spec h
  refine ⟨⟨(s.random_state.choice X.length size).1,
      choice_fst_nodup s.random_state X.length size,
      fun i hi => choice_fst_mem hi, h1⟩,
    fun Q => by rw [decision_function_snd], ⟨k, hss⟩, ?_⟩
  intro X2 s2 h2
  obtain ⟨-, -, hcase⟩ := fit_ok_cases h2
  rcases hcase with ⟨k2, -, -, -, hbody⟩ | ⟨q2, hq2, -⟩
  · exact (fitBody_ok_spec hbody).2.2.2.2.2.1
  · rw [hss] at hq2; cases hq2

/-- C7 witness: the amended theorem applied to the concrete fit of `s3` on
`X3`. -/
theorem subset_without_replacement_witness :
    (∃ idxs : List ℕ, idxs.Nodup ∧ (∀ i ∈ idxs, i < X3.length) ∧
       (fitState s3 X3).subset = some (idxs.map (fun i => X3.getD i []))) ∧
    (∀ Q, ((decision_function (fitState s3 X3) Q).2).subset = (fitState s3 X3).subset) ∧
    (∃ k : ℤ, (fitState s3 X3).subset_size = .int k) ∧
    (∀ X2 s2, fit (fitState s3 X3) X2 = .ok s2 →
       s2.subset_size = (fitState s3 X3).subset_size) :=
  @subset_without_replacement s3 (fitState s3 X3) X3 rfl

/-- C8: each successful `fit` performs exactly one metric resolution (the
ghost counter increases by one), with `metric_params` forwarded verbatim as
the extra arguments of `get_metric`; the resolved metric object is cached in
`dist`, scoring calls neither change it nor resolve again, and every
successful scoring call computes its scores with exactly the cached resolved
metric. -/
theorem metric_resolved_once_cached {s s1 : Sampling} {X : Mat}
    (h : fit s X = .ok s1) :
    s1.resolve_count = s.resolve_count + 1 ∧
    s1.dist = some (DistanceMetric.get_metric s.metric (s.metric_params.getD [])) ∧
    (∀ Q, ((decision_function s1 Q).2).dist = s1.dist ∧
          ((decision_function s1 Q).2).resolve_count = s1.resolve_count) ∧
    (∀ Q scores, (decision_function s1 Q).1 = .ok scores →
      ∃ sub, s1.subset = some sub ∧
        scores = ((DistanceMetric.get_metric s.metric
          (s.metric_params.getD [])).pairwise Q sub).map listMin) := by
  obtain ⟨-, -, size, -, h2, -, -, -, -, -, -, -, h11, -, -, -⟩ := fit_ok_spec h
  rw [resolvedDist_eq] at h2
  refine ⟨h11, h2, fun Q => by rw [decision_function_snd]; exact ⟨rfl, rfl⟩, ?_⟩
  intro Q scores hok
  obtain ⟨m, sub, hd, hs, hscores⟩ := decision_function_ok_inv hok
  rw [h2] at hd
  injection hd with hd
  subst hd
  exact ⟨sub, hs, hscores⟩

/-- C8 witness: the theorem applied to the concrete fit of `s3` on `X3`. -/
theorem metric_resolved_once_cached_witness :
    (fitState s3 X3).resolve_count = s3.resolve_count + 1 ∧
    (fitState s3 X3).dist =
      some (DistanceMetric.get_metric s3.metric (s3.metric_params.getD [])) ∧
    (∀ Q, ((decision_function (fitState s3 X3) Q).2).dist = (fitState s3 X3).dist ∧
          ((decision_function (fitState s3 X3) Q).2).resolve_count =
            (fitState s3 X3).resolve_count) ∧
    (∀ Q scores, (decision_function (fitState s3 X3) Q).1 = .ok scores →
      ∃ sub, (fitState s3 X3).subset = some sub ∧
        scores = ((DistanceMetric.get_metric s3.metric
          (s3.metric_params.getD [])).pairwise Q sub).map listMin) :=
  @metric_resolved_once_cached s3 (fitState s3 X3) X3 rfl

/-- C9: fitting with `subset_size` equal to `N` (the whole training set
sampled as the reference subset) is valid — the fit succeeds — and the
training scores are all 0, because every training point is itself a reference
point at distance 0. -/
theorem full_subset_zero_scores {s : Sampling} {X : Mat}
    (hX : checkArray X = .ok X) (hss : s.subset_size = .int (X.length : ℤ)) :
    ∃ s1, fit s X = .ok s1 ∧
      s1.decision_scores_ = some (X.map (fun _ => (0 : ℚ))) := by
  obtain ⟨-, hne⟩ := checkArray_ok hX
  have hfit : fit s X = fitBody s X X.length := by
    simp only [fit, hX, hss]
    rw [if_pos ⟨Int.natCast_nonneg _, le_refl _⟩, Int.toNat_natCast]
  have hperm := choice_full_perm s.random_state X.length
  have hlen0 : X.length ≠ 0 := fun hz => hne (List.length_eq_zero.mp hz)
  have hsubne :
      (s.random_state.choice X.length X.length).1.map (fun i => X.getD i []) ≠ [] := by
    intro hnil
    have : (s.random_state.choice X.length X.length).1 = [] := List.map_eq_nil_iff.mp hnil
    rw [this] at hperm
    exact hlen0 (by simpa using hperm.symm.length_eq)
  have hok := npMinAxis1_pairwise_ok (resolvedDist s) X
    ((s.random_state.choice X.length X.length).1.map (fun i => X.getD i [])) hsubne
  obtain ⟨s1, hb⟩ : ∃ s1, fitBody s X X.length = .ok s1 := by
    simp only [fitBody]
    rw [hok]
    exact ⟨_, rfl⟩
  have hds := (fitBody_ok_spec hb).2.2.1
  refine ⟨s1, hfit.trans hb, ?_⟩
  rw [hds]
  congr 1
  rw [DistanceMetric.pairwise, List.map_map]
  apply List.map_congr_left
  intro x hx
  obtain ⟨i, hi, hib⟩ := List.mem_iff_getElem.mp hx
  have hiidx : i ∈ (s.random_state.choice X.length X.length).1 :=
    (hperm.mem_iff).mpr (List.mem_range.mpr hi)
  have hxd : X.getD i [] = x := by
    simp [List.getD_eq_getElem?_getD, List.getElem?_eq_getElem hi, hib]
  have hxsub : x ∈ (s.random_state.choice X.length X.length).1.map
      (fun i => X.getD i []) := by
    rw [← hxd]
    exact List.mem_map_of_mem _ hiidx
  show listMin _ = 0
  apply listMin_eq_zero
  · have h0 : (resolvedDist s).dist x x = 0 := by
      rw [resolvedDist_dist]; exact l1dist_self x
    rw [← h0]
    exact List.mem_map_of_mem _ hxsub
  · intro y hy
    obtain ⟨w, hw, rfl⟩ := List.mem_map.mp hy
    rw [resolvedDist_dist]
    exact l1dist_nonneg x w

/-- The concrete detector for the C9 witness: `subset_size = 3 = N`. -/
def s9 : Sampling := Sampling.init (mkRat 1 10) (.int 3) "minkowski" none 0

/-- C9 witness: the theorem applied to `s9` (subset size 3) on the 3-row
`X3`. -/
theorem full_subset_zero_scores_witness :
    ∃ s1, fit s9 X3 = .ok s1 ∧
      s1.decision_scores_ = some (X3.map (fun _ => (0 : ℚ))) :=
  @full_subset_zero_scores s9 X3 rfl rfl

/-- C10: a first successful fit with a fractional `subset_size` permanently
overwrites the stored field with the absolute count `int(q * N) = ⌊q * N⌋`;
any later fit call on the same instance therefore takes the integer branch —
the fraction range check is skipped and the value is treated as an absolute
count — even when the new data set has a different number of rows. -/
theorem fraction_overwritten_permanently {s s1 : Sampling} {X : Mat} {q : ℚ}
    (hss : s.subset_size = .frac q) (h : fit s X = .ok s1) :
    s1.subset_size = .int (subsetCount q X.length : ℤ) ∧
    (subsetCount q X.length : ℤ) = ⌊q * (X.length : ℚ)⌋ ∧
    (∀ X2, checkArray X2 = .ok X2 →
      fit s1 X2 =
        if 0 ≤ (subsetCount q X.length : ℤ) ∧
            (subsetCount q X.length : ℤ) ≤ (X2.length : ℤ)
        then fitBody s1 X2 (subsetCount q X.length)
        else .error (s1, .invalidParameter)) := by
  obtain ⟨-, -, hcase⟩ := fit_ok_cases h
  rcases hcase with ⟨k, hk, -⟩ | ⟨q2, hq2, hq0, -, hbody⟩
  · rw [hss] at hk; cases hk
  · rw [hss] at hq2
    injection hq2 with hqq
    subst hqq
    have hss1 := (fitBody_ok_spec hbody).2.2.2.2.2.1
    refine ⟨hss1, subsetCount_eq_floor q X.length hq0, ?_⟩
    intro X2 hX2
    simp only [fit, hX2, hss1]
    rw [Int.toNat_natCast]

/-- The concrete detector for the C10 witness: fractional subset size 1/2. -/
def sF : Sampling := Sampling.init (mkRat 1 10) (.frac (mkRat 1 2)) "minkowski" none 0

/-- The concrete 4-row training set for the C10 witness. -/
def X4 : Mat := [[0], [1], [2], [3]]

/-- C10 witness: the theorem applied to the concrete fractional instance `sF`
fitted on the 4-row `X4` (the stored count becomes 2). -/
theorem fraction_overwritten_permanently_witness :
    (fitState sF X4).subset_size = .int (subsetCount (mkRat 1 2) X4.length : ℤ) ∧
    (subsetCount (mkRat 1 2) X4.length : ℤ) = ⌊(mkRat 1 2) * (X4.length : ℚ)⌋ ∧
    (∀ X2, checkArray X2 = .ok X2 →
      fit (fitState sF X4) X2 =
        if 0 ≤ (subsetCount (mkRat 1 2) X4.length : ℤ) ∧
            (subsetCount (mkRat 1 2) X4.length : ℤ) ≤ (X2.length : ℤ)
        then fitBody (fitState sF X4) X2 (subsetCount (mkRat 1 2) X4.length)
        else .error (fitState sF X4, .invalidParameter)) :=
  @fraction_overwritten_permanently sF (fitState sF X4) X4 (mkRat 1 2) rfl rfl

end PyodSampling
